import Mathlib

/-!
Verification development for the boxscore-backend synchronization core.

The definitions below are a shallow embedding of the Python source:
  app/cron/cancellation.py   (cancellation-token registry)
  app/cron/scheduler.py      (job executor: run_job_now, run_cron_job,
                              cleanup_stuck_jobs, detail-merge rule)
  app/api/admin_cron.py      (stop_cron_run)
  app/services/cron_service.py (per-entity reconciliation steps of
                              update_finished_games, update_schedules,
                              update_player_season_averages_batch,
                              update_team_results)

Machine conventions: timestamps are integers (seconds, UTC); database rows
are records in lists; the JSON detail payloads are association lists with
Python-dict update semantics; the job body is abstracted by its outcome
(normal return with a result dict, timeout, cancellation signal, or an
unexpected exception), exactly the four cases the executors dispatch on.
-/

namespace App

/-- A JSON-ish value stored in the details payload of a run.  The jobs in
the source store strings, numbers and lists of log lines. -/
inductive Val where
  | vStr (s : String)
  | vInt (n : Int)
  | vLogs (ls : List String)
  deriving DecidableEq, Repr

/-- A JSON object (Python dict) with string keys, in insertion order. -/
abbrev Details := List (String × Val)

/-- Python `d.get(k)`: value of the first (unique, for a real dict) pair. -/
def dictGet : Details → String → Option Val
  | [], _ => none
  | p :: rest, k => if p.1 == k then some p.2 else dictGet rest k

/-- Python `k in d`. -/
def dictContains (d : Details) (k : String) : Bool :=
  (dictGet d k).isSome

/-- Python `d[k] = v`: replace in place when the key exists, append when
it does not (dict insertion-order semantics). -/
def dictSet (d : Details) (k : String) (v : Val) : Details :=
  if dictContains d k then
    d.map (fun p => if p.1 == k then (k, v) else p)
  else
    d ++ [(k, v)]

/-- Python `{**a, **b}`: the pairs of `b` written over `a`, left to right. -/
def dictMerge (a b : Details) : Details :=
  b.foldl (fun acc p => dictSet acc p.1 p.2) a

/-- The detail-merge rule of the executors, scheduler.py lines 78-92 and
260-274: start from the dict-union with the body payload winning, then give
the already-persisted logs priority via the explicit if/elif/elif chain. -/
def mergeRunDetails (existingDetails newDetails : Details) : Details :=
  let merged := dictMerge existingDetails newDetails
  match dictGet existingDetails "logs", dictGet newDetails "logs" with
  | some l, some _ => dictSet merged "logs" l
  | some l, none => dictSet merged "logs" l
  | none, some l => dictSet merged "logs" l
  | none, none => merged

/-- app/cron/cancellation.py: `CancellationToken` carries the run id, a
cancelled flag, a cancellation timestamp, and a reason. -/
structure CancellationToken where
  run_id : Nat
  cancelled : Bool
  cancelled_at : Option Int
  reason : Option String
  deriving DecidableEq, Repr

/-- `CancellationToken.__init__`. -/
def CancellationToken.new (run_id : Nat) : CancellationToken :=
  { run_id := run_id, cancelled := false, cancelled_at := none, reason := none }

/-- The `_active_tokens` global mapping from run id to token. -/
abbrev Registry := List (Nat × CancellationToken)

/-- Lookup in the token registry: `_active_tokens[run_id]` when present. -/
def regFind : Registry → Nat → Option CancellationToken
  | [], _ => none
  | p :: rest, run_id => if p.1 == run_id then some p.2 else regFind rest run_id

/-- Python `run_id in _active_tokens`. -/
def regContains (reg : Registry) (run_id : Nat) : Bool :=
  (regFind reg run_id).isSome

/-- cancellation.py `get_cancellation_token`: get or create a token; the
returned pair is (token, registry after the call). -/
def get_cancellation_token (reg : Registry) (run_id : Nat) :
    CancellationToken × Registry :=
  match regFind reg run_id with
  | some t => (t, reg)
  | none => (CancellationToken.new run_id, reg ++ [(run_id, CancellationToken.new run_id)])

/-- cancellation.py `cancel_run`: set the cancelled flag of an existing
token; returns whether a token existed, and the updated registry. -/
def cancel_run (reg : Registry) (run_id : Nat) (now : Int) (reason : String) :
    Bool × Registry :=
  if regContains reg run_id then
    (true, reg.map (fun p =>
      if p.1 == run_id then
        (p.1, { p.2 with cancelled := true, cancelled_at := some now,
                         reason := some reason })
      else p))
  else
    (false, reg)

/-- cancellation.py `remove_token`: `_active_tokens.pop(run_id, None)`. -/
def remove_token (reg : Registry) (run_id : Nat) : Registry :=
  reg.filter (fun p => p.1 != run_id)

/-- app/models/cron_job.py `CronRun`: one tracked execution of a job. -/
structure CronRun where
  id : Nat
  job_id : Nat
  job_name : String
  triggered_by : String
  started_at : Int
  completed_at : Option Int
  status : String
  duration_seconds : Option Int
  items_updated : Int
  error_message : Option String
  details : Option Details
  deriving DecidableEq, Repr

/-- app/models/cron_job.py `CronJob`: the persisted job definition. -/
structure CronJob where
  id : Nat
  name : String
  is_active : Bool
  last_run : Option Int
  total_runs : Int
  successful_runs : Int
  failed_runs : Int
  updated_at : Int
  deriving DecidableEq, Repr

/-- The run and job tables of the database. -/
structure DBState where
  runs : List CronRun
  jobs : List CronJob
  deriving DecidableEq, Repr

/-- Whole state touched by the executors: tables, token registry, and the
next id the store will assign to a created run. -/
structure ExecState where
  db : DBState
  reg : Registry
  nextRunId : Nat
  deriving DecidableEq, Repr

/-- `select(CronRun).where(CronRun.id == run_id)` then `scalar_one_or_none`. -/
def findRun : List CronRun → Nat → Option CronRun
  | [], _ => none
  | r :: rest, run_id => if r.id == run_id then some r else findRun rest run_id

/-- Mutate the row with the given id in place. -/
def updateRun (runs : List CronRun) (run_id : Nat) (f : CronRun → CronRun) :
    List CronRun :=
  runs.map (fun r => if r.id == run_id then f r else r)

/-- `select(CronJob).where(CronJob.name == job_name)` then `scalar_one_or_none`. -/
def findJobByName : List CronJob → String → Option CronJob
  | [], _ => none
  | j :: rest, job_name =>
    if j.name == job_name then some j else findJobByName rest job_name

/-- Mutate the job row with the given id in place. -/
def updateJob (jobs : List CronJob) (job_id : Nat) (f : CronJob → CronJob) :
    List CronJob :=
  jobs.map (fun j => if j.id == job_id then f j else j)

/-- The dict a job body returns: `result_data` with its optional keys, read
by the executors through `result_data.get(key, default)`. -/
structure ResultData where
  statusKey : Option String
  itemsUpdatedKey : Option Int
  detailsKey : Option Details
  errorKey : Option String
  deriving DecidableEq, Repr

/-- The four ways `await asyncio.wait_for(job_func(...))` can come back to
the executor: a normal return carrying `result_data`, an
`asyncio.TimeoutError`, an `asyncio.CancelledError` carrying `str(e)`, or
any other exception carrying `str(e)`. -/
inductive JobOutcome where
  | normal (rd : ResultData)
  | timeout
  | cancelled (msg : String)
  | exc (msg : String)
  deriving DecidableEq, Repr

/-- scheduler.py line 50 and 202: `timeout_seconds = 30 * 60`. -/
def timeout_seconds : Nat := 30 * 60

/-- scheduler.py lines 109-112 and 219-222: finalize a run record after an
`asyncio.TimeoutError` (identical in both executors). -/
def finalizeTimeout (endTime : Int) (r : CronRun) : CronRun :=
  { r with completed_at := some endTime,
           status := "failed",
           error_message :=
             some ("Job timed out after " ++ toString timeout_seconds ++ " seconds"),
           duration_seconds := some (timeout_seconds : Int) }

/-- scheduler.py lines 124-132 and 234-238: finalize a run record after an
`asyncio.CancelledError`; `str(e) or "Job cancelled by user"`. -/
def finalizeCancelled (endTime : Int) (msg : String) (r : CronRun) : CronRun :=
  { r with completed_at := some endTime,
           status := "failed",
           error_message :=
             some (if msg == "" then "Job cancelled by user" else msg),
           duration_seconds := some (endTime - r.started_at) }

/-- scheduler.py lines 147-155 and 301-305: finalize a run record after any
other exception, with `error_message = str(e)`. -/
def finalizeException (endTime : Int) (msg : String) (r : CronRun) : CronRun :=
  { r with completed_at := some endTime,
           status := "failed",
           error_message := some msg,
           duration_seconds := some (endTime - r.started_at) }

/-- scheduler.py lines 65-95 and 254-277: finalize a run record after a
normal return of the body, merging the incrementally persisted details with
the details of the returned `result_data`. -/
def finalizeNormal (endTime : Int) (rd : ResultData) (r : CronRun) : CronRun :=
  let status := rd.statusKey.getD "success"
  let merged := mergeRunDetails (r.details.getD []) (rd.detailsKey.getD [])
  { r with completed_at := some endTime,
           duration_seconds := some (endTime - r.started_at),
           status := status,
           items_updated := rd.itemsUpdatedKey.getD 0,
           details := some merged,
           error_message :=
             if status == "failed" then some (rd.errorKey.getD "Unknown error")
             else r.error_message }

/-- scheduler.py `run_job_now` (lines 20-164), the manual-trigger executor.
Creates a run with `job_id = 0`, `triggered_by = "manual"`, obtains a
cancellation token, dispatches on the body outcome, and removes the token
in the `finally` block on every path.  `progressDetails` stands for the
details the body persisted through `update_run_progress` while it ran. -/
def run_job_now (s : ExecState) (job_name : String)
    (startTime endTime : Int) (outcome : JobOutcome)
    (progressDetails : Option Details) : ExecState :=
  let run_id := s.nextRunId
  let run : CronRun :=
    { id := run_id, job_id := 0, job_name := job_name,
      triggered_by := "manual", started_at := startTime,
      completed_at := none, status := "running", duration_seconds := none,
      items_updated := 0, error_message := none, details := none }
  let (_, reg1) := get_cancellation_token s.reg run_id
  let runs1 := updateRun (s.db.runs ++ [run]) run_id
    (fun r => { r with details := progressDetails })
  let runs2 :=
    match outcome with
    | .normal rd => updateRun runs1 run_id (finalizeNormal endTime rd)
    | .timeout => updateRun runs1 run_id (finalizeTimeout endTime)
    | .cancelled msg => updateRun runs1 run_id (finalizeCancelled endTime msg)
    | .exc msg => updateRun runs1 run_id (finalizeException endTime msg)
  { db := { runs := runs2, jobs := s.db.jobs },
    reg := remove_token reg1 run_id,
    nextRunId := s.nextRunId + 1 }

/-- scheduler.py `run_cron_job` (lines 167-310), the scheduled-path
executor.  Returns immediately when the named job has no row or the row is
inactive.  Otherwise it creates a run with `triggered_by = "cron"`, obtains
a token and dispatches on the outcome.  Faithful to the source, the token
is removed only on the normal-return path (lines 288-289) and in the outer
exception handler (lines 309-310); the timeout and cancellation handlers
`return` without removing it (lines 224 and 240), and only the
normal-return path updates the job counters (lines 276-284). -/
def run_cron_job (s : ExecState) (job_name : String)
    (startTime endTime : Int) (outcome : JobOutcome)
    (progressDetails : Option Details) : ExecState :=
  match findJobByName s.db.jobs job_name with
  | none => s
  | some cron_job =>
    if !cron_job.is_active then s
    else
      let run_id := s.nextRunId
      let run : CronRun :=
        { id := run_id, job_id := cron_job.id, job_name := job_name,
          triggered_by := "cron", started_at := startTime,
          completed_at := none, status := "running",
          duration_seconds := none, items_updated := 0,
          error_message := none, details := none }
      let (_, reg1) := get_cancellation_token s.reg run_id
      let runs1 := updateRun (s.db.runs ++ [run]) run_id
        (fun r => { r with details := progressDetails })
      match outcome with
      | .timeout =>
        { db := { runs := updateRun runs1 run_id (finalizeTimeout endTime),
                  jobs := s.db.jobs },
          reg := reg1, nextRunId := s.nextRunId + 1 }
      | .cancelled msg =>
        { db := { runs := updateRun runs1 run_id (finalizeCancelled endTime msg),
                  jobs := s.db.jobs },
          reg := reg1, nextRunId := s.nextRunId + 1 }
      | .normal rd =>
        let status := rd.statusKey.getD "success"
        let jobs2 := updateJob s.db.jobs cron_job.id (fun j =>
          { j with
            failed_runs := if status == "failed" then j.failed_runs + 1 else j.failed_runs,
            successful_runs := if status == "failed" then j.successful_runs else j.successful_runs + 1,
            last_run := some startTime,
            total_runs := j.total_runs + 1,
            updated_at := endTime })
        { db := { runs := updateRun runs1 run_id (finalizeNormal endTime rd),
                  jobs := jobs2 },
          reg := remove_token reg1 run_id, nextRunId := s.nextRunId + 1 }
      | .exc msg =>
        { db := { runs := updateRun runs1 run_id (finalizeException endTime msg),
                  jobs := s.db.jobs },
          reg := remove_token reg1 run_id, nextRunId := s.nextRunId + 1 }

/-- scheduler.py line 469: the reclamation error message. -/
def stuckMessage : String :=
  "Job marked as failed - was stuck in running state for over 1 hour"

/-- The selection predicate of the sweep, scheduler.py lines 458-463:
status `running` and started more than one hour before the sweep time. -/
def isStuck (now : Int) (r : CronRun) : Bool :=
  r.status == "running" && r.started_at < now - 3600

/-- scheduler.py lines 466-478: reclaim one stuck run. -/
def reclaimRun (now : Int) (r : CronRun) : CronRun :=
  { r with status := "failed",
           completed_at := some now,
           error_message := some stuckMessage,
           duration_seconds := some (now - r.started_at) }

/-- scheduler.py lines 480-482 inside the sweep loop: cancel the matching
token (if any) and then remove it from the registry. -/
def sweepToken (now : Int) (reg : Registry) (r : CronRun) : Registry :=
  remove_token (cancel_run reg r.id now "Stuck job cleaned up").2 r.id

/-- scheduler.py lines 484-491: bump the failure and total counters of the
job backing one stuck run, when such a job row exists. -/
def sweepJobCounters (jobs : List CronJob) (r : CronRun) : List CronJob :=
  updateJob jobs r.job_id (fun j =>
    { j with failed_runs := j.failed_runs + 1, total_runs := j.total_runs + 1 })

/-- scheduler.py `cleanup_stuck_jobs` (lines 453-495): mark every run that
has been `running` for more than one hour as failed, release its token,
and charge the failure to its backing job definition. -/
def cleanup_stuck_jobs (db : DBState) (reg : Registry) (now : Int) :
    DBState × Registry :=
  let stuck_runs := db.runs.filter (isStuck now)
  let runs2 := db.runs.map (fun r => if isStuck now r then reclaimRun now r else r)
  let reg2 := stuck_runs.foldl (sweepToken now) reg
  let jobs2 := stuck_runs.foldl sweepJobCounters db.jobs
  ({ runs := runs2, jobs := jobs2 }, reg2)

/-- The three ways admin_cron.py `stop_cron_run` responds. -/
inductive StopResponse where
  | notFound
  | alreadyDone (status : String)
  | stopped
  deriving DecidableEq, Repr

/-- admin_cron.py `stop_cron_run` (lines 339-418).  A run that is not
`running` and not stuck is reported as already done with no writes; a
running (or stuck) run has its token cancelled and is force-marked failed
with message `Stopped by user`. -/
def stop_cron_run (db : DBState) (reg : Registry) (run_id : Nat) (now : Int) :
    StopResponse × DBState × Registry :=
  match findRun db.runs run_id with
  | none => (StopResponse.notFound, db, reg)
  | some run =>
    let is_stuck := run.status == "running" && now - run.started_at > 3600
    if run.status != "running" && !is_stuck then
      (StopResponse.alreadyDone run.status, db, reg)
    else
      let reg2 := (cancel_run reg run_id now "Stopped by user").2
      let runs2 := updateRun db.runs run_id (fun r =>
        { r with status := "failed",
                 completed_at := some now,
                 error_message := some "Stopped by user",
                 duration_seconds := some (now - r.started_at) })
      (StopResponse.stopped, { runs := runs2, jobs := db.jobs }, reg2)

/-- app/models/game.py `Game`: the columns the sync jobs touch. -/
structure Game where
  id : Nat
  nba_game_id : String
  home_team_id : Nat
  away_team_id : Nat
  start_time_utc : Int
  status : String
  home_score : Option Int
  away_score : Option Int
  source : String
  is_manual_override : Bool
  override_reason : Option String
  last_api_sync : Option Int
  last_manual_edit : Option Int
  deriving DecidableEq, Repr

/-- Does the pattern start the character list? -/
def startsWithList : List Char → List Char → Bool
  | [], _ => true
  | _ :: _, [] => false
  | p :: ps, c :: cs => p == c && startsWithList ps cs

/-- Does the pattern occur contiguously anywhere in the character list? -/
def hasSubList (pat : List Char) : List Char → Bool
  | [] => pat.isEmpty
  | c :: cs => startsWithList pat (c :: cs) || hasSubList pat cs

/-- Python `s.lower()` on the ASCII strings the upstream sends. -/
def pyLower (s : String) : String :=
  String.mk (s.toList.map Char.toLower)

/-- Python `"final" in nba_status` as in cron_service.py line 276. -/
def statusHasFinal (nba_status : String) : Bool :=
  hasSubList "final".toList nba_status.toList

/-- The normalized boxscore dict the upstream client returns for one game. -/
structure Boxscore where
  game_status : String
  home_score : Option Int
  away_score : Option Int
  deriving DecidableEq, Repr

/-- One element of the `asyncio.gather(..., return_exceptions=True)` result
in cron_service.py line 257: either an exception carrying `str(boxscore)`,
or the fetched value, which the code then tests for truthiness (`none`
stands for a falsy/empty payload). -/
inductive FetchResult where
  | exc (msg : String)
  | ok (b : Option Boxscore)
  deriving DecidableEq, Repr

/-- cron_service.py lines 150-156: games whose start time lies in the
look-back window `[now - hours_back, now]`. -/
def recentGamesFilter (now_naive time_window_ago_naive : Int)
    (games : List Game) : List Game :=
  games.filter (fun g =>
    time_window_ago_naive ≤ g.start_time_utc && g.start_time_utc ≤ now_naive)

/-- cron_service.py lines 186-197: in force mode every recent game is
checked; otherwise only games started two or more hours ago or already
final. -/
def gamesToCheckFilter (force : Bool) (two_hours_ago_naive : Int)
    (games : List Game) : List Game :=
  if force then games
  else games.filter (fun g =>
    g.start_time_utc ≤ two_hours_ago_naive || g.status == "final")

/-- cron_service.py lines 235-240: in force mode all checked games are
fetched; otherwise only those not yet final or without a home score. -/
def gamesNeedingUpdateFilter (force : Bool) (games : List Game) : List Game :=
  if force then games
  else games.filter (fun g => g.status != "final" || g.home_score == none)

/-- Result of processing one (game, boxscore) pair in the
`update_finished_games` loop: the possibly rewritten game row, the error
strings appended to `details["errors"]`, the increment applied to
`details["games_updated"]`, and whether the game was recorded in
`final_games`. -/
structure GameStepResult where
  game : Game
  errors : List String
  games_updated : Nat
  is_final : Bool
  deriving DecidableEq, Repr

/-- cron_service.py lines 264-303, the per-game body of the boxscore loop.
A fetch exception is recorded against the game and nothing is written; a
boxscore whose status contains `final` overwrites the scores and status of
the stored game and bumps `last_api_sync` and the counter; the row carries
no check of `is_manual_override` on any path. -/
def processGameBoxscore (now : Int) (game : Game) (fr : FetchResult) :
    GameStepResult :=
  match fr with
  | .exc msg =>
    { game := game, errors := ["Error fetching boxscore: " ++ msg],
      games_updated := 0, is_final := false }
  | .ok none =>
    { game := game, errors := [], games_updated := 0, is_final := false }
  | .ok (some b) =>
    let nba_status := pyLower b.game_status
    if statusHasFinal nba_status then
      { game := { game with home_score := b.home_score,
                            away_score := b.away_score,
                            status := "final",
                            last_api_sync := some now },
        errors := [], games_updated := 1, is_final := true }
    else
      { game := game, errors := [], games_updated := 0, is_final := false }

/-- Accumulated outcome of the boxscore loop. -/
structure BatchAcc where
  games : List Game
  errors : List String
  games_updated : Nat
  deriving DecidableEq, Repr

/-- One iteration of the boxscore loop, accumulating the per-game result. -/
def boxscoreFold (now : Int) (acc : BatchAcc) (e : Game × FetchResult) :
    BatchAcc :=
  let r := processGameBoxscore now e.1 e.2
  { games := acc.games ++ [r.game],
    errors := acc.errors ++ r.errors,
    games_updated := acc.games_updated + r.games_updated }

/-- The boxscore loop of `update_finished_games` over all fetched pairs,
each iteration guarded by its own try/except so that one failing entity
never stops the remaining ones. -/
def processBoxscores (now : Int) (entries : List (Game × FetchResult)) :
    BatchAcc :=
  entries.foldl (boxscoreFold now)
    { games := [], errors := [], games_updated := 0 }

/-- cron_service.py lines 640-655: unless the whole body raises, the job
returns `status="success"` with the accumulated counters; entity-level
errors live only inside `details["errors"]` and never flip the status. -/
def updateFinishedGamesStatus (_acc : BatchAcc) : String :=
  "success"

/-- The fields of one schedule entry read by the `update_schedules`
existing-game branch. -/
structure ScheduleGameData where
  status : Option String
  home_score : Option Int
  away_score : Option Int
  deriving DecidableEq, Repr

/-- cron_service.py lines 997-1014, the existing-game branch of
`update_schedules`: status, start time and both scores are overwritten from
the upstream schedule and `games_updated` is incremented, with no check of
`is_manual_override` and no comparison against the stored values. -/
def updateSchedulesExistingStep (now : Int) (existing : Game)
    (gd : ScheduleGameData) (game_datetime : Int) : Game × Nat :=
  ({ existing with status := gd.status.getD "scheduled",
                   start_time_utc := game_datetime,
                   home_score := gd.home_score,
                   away_score := gd.away_score,
                   last_api_sync := some now }, 1)

/-- app/models/player_season_stats.py `PlayerSeasonStats`: the columns the
batch job touches (float columns modelled as rationals). -/
structure PlayerSeasonStats where
  id : Nat
  player_id : Nat
  season : String
  pts : ℚ
  reb : ℚ
  ast : ℚ
  stl : ℚ
  blk : ℚ
  games_played : Int
  minutes : ℚ
  fg_pct : Option ℚ
  fg3_pct : Option ℚ
  ft_pct : Option ℚ
  is_manual_override : Bool
  last_api_sync : Option Int
  deriving DecidableEq, Repr

/-- One season entry of the career payload the upstream client returns. -/
structure SeasonData where
  pts : ℚ
  reb : ℚ
  ast : ℚ
  stl : ℚ
  blk : ℚ
  games_played : Int
  minutes : ℚ
  fg_pct : Option ℚ
  fg3_pct : Option ℚ
  ft_pct : Option ℚ
  deriving DecidableEq, Repr

/-- Result of one iteration of the `update_player_season_averages_batch`
loop: the row after the write, the increment of `players_updated` (which
feeds `items_updated`), and whether the log line marked a change (the
`if changes:` branch of lines 813-816). -/
structure SeasonStepResult where
  stats : PlayerSeasonStats
  players_updated : Nat
  logged_change : Bool
  deriving DecidableEq, Repr

/-- cron_service.py lines 778-819, the per-player body of the batch loop.
When season data is present all business fields are overwritten and
`players_updated` is incremented unconditionally; the list of changes is
computed only to decide which log line to append. -/
def updatePlayerSeasonStep (now : Int) (stats : PlayerSeasonStats)
    (season_data : Option SeasonData) : SeasonStepResult :=
  match season_data with
  | none => { stats := stats, players_updated := 0, logged_change := false }
  | some sd =>
    let stats2 : PlayerSeasonStats :=
      { stats with pts := sd.pts, reb := sd.reb, ast := sd.ast,
                   stl := sd.stl, blk := sd.blk,
                   games_played := sd.games_played, minutes := sd.minutes,
                   fg_pct := sd.fg_pct, fg3_pct := sd.fg3_pct,
                   ft_pct := sd.ft_pct, last_api_sync := some now }
    let changesNonempty :=
      stats.pts != stats2.pts || stats.reb != stats2.reb ||
      stats.ast != stats2.ast || stats.stl != stats2.stl ||
      stats.blk != stats2.blk || stats.games_played != stats2.games_played
    { stats := stats2, players_updated := 1, logged_change := changesNonempty }

/-- Python truthiness of `row.get("WL")`: present and not the empty
string. -/
def wlTruthy : Option String → Bool
  | none => false
  | some s => s != ""

/-- cron_service.py lines 1411-1418: write the score of the side the row
belongs to when the stored score differs from the row value; the second
component is the `changed` flag after this block. -/
def updateTeamResultsScore (game : Game) (currentTeamId : Nat)
    (pts : Option Int) : Game × Bool :=
  if game.home_team_id == currentTeamId then
    if game.home_score != pts then ({ game with home_score := pts }, true)
    else (game, false)
  else if game.away_team_id == currentTeamId then
    if game.away_score != pts then ({ game with away_score := pts }, true)
    else (game, false)
  else (game, false)

/-- cron_service.py lines 1420-1422: a row with a win/loss entry marks a
not-yet-final game final and sets `changed`. -/
def updateTeamResultsWL (wl : Option String) (gc : Game × Bool) :
    Game × Bool :=
  if wlTruthy wl && gc.1.status != "final" then
    ({ gc.1 with status := "final" }, true)
  else gc

/-- cron_service.py lines 1424-1427: only when something was written, bump
`last_api_sync` and report the game as counted. -/
def updateTeamResultsFinish (now : Int) (gc : Game × Bool) : Game × Bool :=
  if gc.2 then ({ gc.1 with last_api_sync := some now }, true)
  else (gc.1, false)

/-- cron_service.py lines 1404-1428, the per-game body of the league-wide
branch of `update_team_results`: the three sequential blocks above; the
second component says whether `games_updated` was incremented for this
game. -/
def updateTeamResultsGameStep (now : Int) (game : Game)
    (currentTeamId : Nat) (pts : Option Int) (wl : Option String) :
    Game × Bool :=
  updateTeamResultsFinish now
    (updateTeamResultsWL wl (updateTeamResultsScore game currentTeamId pts))

/-! ### Lemmas about the dict model and the detail-merge rule -/

/-- First-some choice on options, the shape `{**a, **b}` lookups take. -/
def optOr (x y : Option Val) : Option Val :=
  match x with
  | some v => some v
  | none => y

theorem dictGet_replace_self (d : Details) (k : String) (v : Val)
    (h : dictContains d k = true) :
    dictGet (d.map (fun p => if p.1 == k then (k, v) else p)) k = some v := by
  induction d with
  | nil => simp [dictContains, dictGet] at h
  | cons p rest ih =>
    by_cases hp : p.1 = k
    · simp [dictGet, hp]
    · have h2 : dictContains rest k = true := by
        simpa [dictContains, dictGet, hp] using h
      simpa [dictGet, hp] using ih h2

theorem dictGet_append_self (d : Details) (k : String) (v : Val)
    (h : dictGet d k = none) :
    dictGet (d ++ [(k, v)]) k = some v := by
  induction d with
  | nil => simp [dictGet]
  | cons p rest ih =>
    by_cases hp : p.1 = k
    · simp [dictGet, hp] at h
    · have h2 : dictGet rest k = none := by simpa [dictGet, hp] using h
      simp [dictGet, hp, ih h2]

theorem dictGet_replace_ne (d : Details) (k k2 : String) (v : Val)
    (h : k ≠ k2) :
    dictGet (d.map (fun p => if p.1 == k2 then (k2, v) else p)) k
      = dictGet d k := by
  have hne : k2 ≠ k := fun e => h e.symm
  induction d with
  | nil => simp [dictGet]
  | cons p rest ih =>
    by_cases hp : p.1 = k2
    · simpa [dictGet, hp, hne] using ih
    · by_cases hq : p.1 = k
      · simp [dictGet, hp, hq, h, hne]
      · simpa [dictGet, hp, hq] using ih

theorem dictGet_append_ne (d : Details) (k k2 : String) (v : Val)
    (h : k ≠ k2) :
    dictGet (d ++ [(k2, v)]) k = dictGet d k := by
  have hne : k2 ≠ k := fun e => h e.symm
  induction d with
  | nil => simp [dictGet, hne]
  | cons p rest ih =>
    by_cases hq : p.1 = k <;> simp [dictGet, hq, ih]

theorem dictGet_dictSet_self (d : Details) (k : String) (v : Val) :
    dictGet (dictSet d k v) k = some v := by
  unfold dictSet
  by_cases hc : dictContains d k = true
  · simpa [hc] using dictGet_replace_self d k v hc
  · have hg : dictGet d k = none := by
      rcases hgg : dictGet d k with _ | w
      · rfl
      · exact absurd (by simp [dictContains, hgg]) hc
    simpa [hc] using dictGet_append_self d k v hg

theorem dictGet_dictSet_ne (d : Details) (k k2 : String) (v : Val)
    (h : k ≠ k2) : dictGet (dictSet d k2 v) k = dictGet d k := by
  unfold dictSet
  by_cases hc : dictContains d k2 = true
  · simpa [hc] using dictGet_replace_ne d k k2 v h
  · simpa [hc] using dictGet_append_ne d k k2 v h

theorem dictGet_eq_none_of_keys (l : Details) (k : String)
    (h : ∀ q ∈ l, q.1 ≠ k) : dictGet l k = none := by
  induction l with
  | nil => rfl
  | cons p rest ih =>
    have hp : (p.1 == k) = false := by
      simpa using h p (List.mem_cons_self p rest)
    simp [dictGet, hp]
    exact ih fun q hq => h q (List.mem_cons_of_mem p hq)

theorem dictGet_dictMerge (a b : Details) (k : String)
    (hb : (b.map Prod.fst).Nodup) :
    dictGet (dictMerge a b) k = optOr (dictGet b k) (dictGet a k) := by
  induction b generalizing a with
  | nil => simp [dictMerge, dictGet, optOr]
  | cons p bs ih =>
    have hmerge : dictMerge a (p :: bs) = dictMerge (dictSet a p.1 p.2) bs := rfl
    have hb2 : (p.1 :: bs.map Prod.fst).Nodup := by
      rw [List.map_cons] at hb
      exact hb
    have hnotin : p.1 ∉ bs.map Prod.fst := (List.nodup_cons.mp hb2).1
    have hbs : (bs.map Prod.fst).Nodup := (List.nodup_cons.mp hb2).2
    rw [hmerge, ih _ hbs]
    by_cases hk : p.1 == k
    · have hkey : p.1 = k := by simpa using hk
      have hbnone : dictGet bs k = none := by
        apply dictGet_eq_none_of_keys
        intro q hq he
        exact hnotin (by
          rw [hkey, ← he]
          exact List.mem_map_of_mem Prod.fst hq)
      subst hkey
      simp [dictGet, hbnone, optOr, dictGet_dictSet_self]
    · have hne : k ≠ p.1 := by
        intro he
        simp [he] at hk
      simp [dictGet, hk, dictGet_dictSet_ne a k p.1 p.2 hne]

theorem mergeRunDetails_logs (e n : Details)
    (hn : (n.map Prod.fst).Nodup) :
    dictGet (mergeRunDetails e n) "logs"
      = optOr (dictGet e "logs") (dictGet n "logs") := by
  unfold mergeRunDetails
  rcases he : dictGet e "logs" with _ | l <;>
    rcases hnl : dictGet n "logs" with _ | l2 <;>
      simp [he, hnl, optOr, dictGet_dictSet_self, dictGet_dictMerge _ _ _ hn]

theorem mergeRunDetails_other (e n : Details) (k : String)
    (hn : (n.map Prod.fst).Nodup) (hk : k ≠ "logs") :
    dictGet (mergeRunDetails e n) k
      = optOr (dictGet n k) (dictGet e k) := by
  unfold mergeRunDetails
  rcases he : dictGet e "logs" with _ | l <;>
    rcases hnl : dictGet n "logs" with _ | l2 <;>
      simp [he, hnl, optOr, dictGet_dictSet_ne _ _ _ _ hk,
            dictGet_dictMerge _ _ _ hn]

/-! ### Lemmas about run lookup, the registry, and the job loops -/

theorem findRun_updateRun (l : List CronRun) (i : Nat) (f : CronRun → CronRun)
    (hf : ∀ r, (f r).id = r.id) :
    findRun (updateRun l i f) i = (findRun l i).map f := by
  induction l with
  | nil => rfl
  | cons r rest ih =>
    by_cases hr : r.id = i
    · simp [updateRun, findRun, hr, hf r]
    · simpa [updateRun, findRun, hr] using ih

theorem findRun_append_fresh (l : List CronRun) (run : CronRun) (i : Nat)
    (hl : ∀ r ∈ l, r.id ≠ i) (hrun : run.id = i) :
    findRun (l ++ [run]) i = some run := by
  induction l with
  | nil => simp [findRun, hrun]
  | cons r rest ih =>
    have hr : r.id ≠ i := hl r (List.mem_cons_self r rest)
    have ih2 := ih fun q hq => hl q (List.mem_cons_of_mem r hq)
    simpa [findRun, hr] using ih2

theorem regFind_isSome_mapVal (reg : Registry) (i k : Nat)
    (f : Nat × CancellationToken → CancellationToken) :
    (regFind (reg.map (fun p => if p.1 == i then (p.1, f p) else p)) k).isSome
      = (regFind reg k).isSome := by
  induction reg with
  | nil => rfl
  | cons p rest ih =>
    by_cases hp : p.1 = i
    · subst hp
      by_cases hk : p.1 = k
      · subst hk
        simp [regFind]
      · simpa [regFind, hk] using ih
    · by_cases hk : p.1 = k
      · subst hk
        simp [regFind, hp]
      · simpa [regFind, hp, hk] using ih

theorem regContains_cancel_run (reg : Registry) (i k : Nat) (now : Int)
    (reason : String) :
    regContains (cancel_run reg i now reason).2 k = regContains reg k := by
  unfold cancel_run
  by_cases hc : regContains reg i = true
  · simp only [hc, if_true]
    exact regFind_isSome_mapVal reg i k _
  · simp [hc]

theorem regContains_remove_self (reg : Registry) (i : Nat) :
    regContains (remove_token reg i) i = false := by
  induction reg with
  | nil => rfl
  | cons p rest ih =>
    by_cases hp : p.1 = i
    · simpa [remove_token, List.filter_cons, hp] using ih
    · simpa [remove_token, List.filter_cons, regContains, regFind, hp] using ih

theorem regContains_remove_mono (reg : Registry) (i k : Nat)
    (h : regContains reg k = false) :
    regContains (remove_token reg i) k = false := by
  induction reg with
  | nil => rfl
  | cons p rest ih =>
    cases hb : (p.1 == k) with
    | true => simp [regContains, regFind, hb] at h
    | false =>
      have hrest : regContains rest k = false := by
        simpa [regContains, regFind, hb] using h
      by_cases hi : p.1 = i
      · simpa [remove_token, List.filter_cons, hi] using ih hrest
      · simpa [remove_token, List.filter_cons, regContains, regFind, hi, hb]
          using ih hrest

theorem sweepToken_self (now : Int) (reg : Registry) (r : CronRun) :
    regContains (sweepToken now reg r) r.id = false :=
  regContains_remove_self _ _

theorem sweepToken_mono (now : Int) (reg : Registry) (x : CronRun) (k : Nat)
    (h : regContains reg k = false) :
    regContains (sweepToken now reg x) k = false := by
  unfold sweepToken
  apply regContains_remove_mono
  rw [regContains_cancel_run]
  exact h

theorem foldl_sweepToken_mono (now : Int) (rs : List CronRun) (reg : Registry)
    (k : Nat) (h : regContains reg k = false) :
    regContains (rs.foldl (sweepToken now) reg) k = false := by
  induction rs generalizing reg with
  | nil => exact h
  | cons x rest ih => exact ih _ (sweepToken_mono now reg x k h)

theorem foldl_sweepToken_absent (now : Int) (rs : List CronRun)
    (reg : Registry) (k : Nat) (h : ∃ r ∈ rs, r.id = k) :
    regContains (rs.foldl (sweepToken now) reg) k = false := by
  induction rs generalizing reg with
  | nil =>
    obtain ⟨r, hr, _⟩ := h
    exact absurd hr (List.not_mem_nil r)
  | cons x rest ih =>
    rw [List.foldl_cons]
    obtain ⟨r, hr, hid⟩ := h
    rcases List.mem_cons.mp hr with he | hm
    · subst he
      apply foldl_sweepToken_mono
      rw [← hid]
      exact sweepToken_self now reg r
    · exact ih _ ⟨r, hm, hid⟩

theorem foldl_sweepJobCounters (rs : List CronRun) (jobs : List CronJob)
    (j : CronJob) (hj : j ∈ jobs) :
    ∃ j2 ∈ rs.foldl sweepJobCounters jobs,
      j2.id = j.id ∧ j2.name = j.name ∧ j2.is_active = j.is_active ∧
      j2.successful_runs = j.successful_runs ∧
      j2.failed_runs
        = j.failed_runs + ((rs.filter (fun r => r.job_id == j.id)).length : Int) ∧
      j2.total_runs
        = j.total_runs + ((rs.filter (fun r => r.job_id == j.id)).length : Int) := by
  induction rs generalizing jobs j with
  | nil =>
    exact ⟨j, hj, rfl, rfl, rfl, rfl, by simp, by simp⟩
  | cons x rest ih =>
    have hstep : (x :: rest).foldl sweepJobCounters jobs
        = rest.foldl sweepJobCounters (sweepJobCounters jobs x) := rfl
    by_cases hx : j.id = x.job_id
    · have hmem : ({ j with failed_runs := j.failed_runs + 1, total_runs := j.total_runs + 1 } : CronJob) ∈ sweepJobCounters jobs x := by
        unfold sweepJobCounters updateJob
        have hm := List.mem_map_of_mem
          (fun jj : CronJob => if jj.id == x.job_id
            then { jj with failed_runs := jj.failed_runs + 1,
                           total_runs := jj.total_runs + 1 }
            else jj) hj
        simpa [hx] using hm
      obtain ⟨j2, hj2, hid, hname, hact, hsucc, hfail, htot⟩ := ih _ _ hmem
      have hflt : ((x :: rest).filter (fun r => r.job_id == j.id)).length
          = (rest.filter (fun r => r.job_id == j.id)).length + 1 := by
        simp [List.filter_cons, hx.symm]
      have hfail2 : j2.failed_runs
          = j.failed_runs + 1
            + ((rest.filter (fun r => r.job_id == j.id)).length : Int) := hfail
      have htot2 : j2.total_runs
          = j.total_runs + 1
            + ((rest.filter (fun r => r.job_id == j.id)).length : Int) := htot
      refine ⟨j2, by rw [hstep]; exact hj2, hid, hname, hact, hsucc, ?_, ?_⟩
      · rw [hflt, hfail2]
        push_cast
        ring
      · rw [hflt, htot2]
        push_cast
        ring
    · have hmem : j ∈ sweepJobCounters jobs x := by
        unfold sweepJobCounters updateJob
        have hm := List.mem_map_of_mem
          (fun jj : CronJob => if jj.id == x.job_id
            then { jj with failed_runs := jj.failed_runs + 1,
                           total_runs := jj.total_runs + 1 }
            else jj) hj
        simpa [hx] using hm
      obtain ⟨j2, hj2, hid, hname, hact, hsucc, hfail, htot⟩ := ih _ _ hmem
      have hflt : ((x :: rest).filter (fun r => r.job_id == j.id)).length
          = (rest.filter (fun r => r.job_id == j.id)).length := by
        have hxx : (x.job_id == j.id) = false := by
          simpa using fun e => hx e.symm
        simp [List.filter_cons, hxx]
      exact ⟨j2, by rw [hstep]; exact hj2, hid, hname, hact, hsucc,
        by rw [hfail, hflt], by rw [htot, hflt]⟩

theorem foldl_boxscore_games (now : Int)
    (entries : List (Game × FetchResult)) :
    ∀ acc : BatchAcc, (entries.foldl (boxscoreFold now) acc).games
      = acc.games ++ entries.map (fun e => (processGameBoxscore now e.1 e.2).game) := by
  induction entries with
  | nil => intro acc; simp
  | cons e rest ih =>
    intro acc
    rw [List.foldl_cons, ih]
    simp [boxscoreFold]

theorem foldl_boxscore_errors (now : Int)
    (entries : List (Game × FetchResult)) :
    ∀ acc : BatchAcc, (entries.foldl (boxscoreFold now) acc).errors
      = acc.errors
        ++ (entries.map (fun e => (processGameBoxscore now e.1 e.2).errors)).flatten := by
  induction entries with
  | nil => intro acc; simp
  | cons e rest ih =>
    intro acc
    rw [List.foldl_cons, ih]
    simp [boxscoreFold]

theorem processBoxscores_games (now : Int)
    (entries : List (Game × FetchResult)) :
    (processBoxscores now entries).games
      = entries.map (fun e => (processGameBoxscore now e.1 e.2).game) := by
  unfold processBoxscores
  rw [foldl_boxscore_games]
  simp

theorem processBoxscores_errors (now : Int)
    (entries : List (Game × FetchResult)) :
    (processBoxscores now entries).errors
      = (entries.map (fun e => (processGameBoxscore now e.1 e.2).errors)).flatten := by
  unfold processBoxscores
  rw [foldl_boxscore_errors]
  simp

theorem findRun_two_updates (l : List CronRun) (run : CronRun) (i : Nat)
    (f g : CronRun → CronRun)
    (hl : ∀ r ∈ l, r.id ≠ i) (hrun : run.id = i)
    (hf : ∀ r, (f r).id = r.id) (hg : ∀ r, (g r).id = r.id) :
    findRun (updateRun (updateRun (l ++ [run]) i f) i g) i = some (g (f run)) := by
  rw [findRun_updateRun _ _ _ hg, findRun_updateRun _ _ _ hf,
      findRun_append_fresh l run i hl hrun]
  rfl

/-- Dispatch table of the executors over the four body outcomes. -/
def outcomeFinalizer (endTime : Int) (o : JobOutcome) : CronRun → CronRun :=
  match o with
  | .normal rd => finalizeNormal endTime rd
  | .timeout => finalizeTimeout endTime
  | .cancelled m => finalizeCancelled endTime m
  | .exc m => finalizeException endTime m

theorem run_job_now_runs (s : ExecState) (jn : String) (t0 t1 : Int)
    (o : JobOutcome) (pd : Option Details) :
    (run_job_now s jn t0 t1 o pd).db.runs
      = updateRun (updateRun (s.db.runs ++
          [{ id := s.nextRunId, job_id := 0, job_name := jn,
             triggered_by := "manual", started_at := t0, completed_at := none,
             status := "running", duration_seconds := none, items_updated := 0,
             error_message := none, details := none }]) s.nextRunId
          (fun r => { r with details := pd })) s.nextRunId
          (outcomeFinalizer t1 o) := by
  cases o <;> rfl

theorem run_cron_job_runs (s : ExecState) (jn : String) (t0 t1 : Int)
    (o : JobOutcome) (pd : Option Details) (j : CronJob)
    (hj : findJobByName s.db.jobs jn = some j) (hact : j.is_active = true) :
    (run_cron_job s jn t0 t1 o pd).db.runs
      = updateRun (updateRun (s.db.runs ++
          [{ id := s.nextRunId, job_id := j.id, job_name := jn,
             triggered_by := "cron", started_at := t0, completed_at := none,
             status := "running", duration_seconds := none, items_updated := 0,
             error_message := none, details := none }]) s.nextRunId
          (fun r => { r with details := pd })) s.nextRunId
          (outcomeFinalizer t1 o) := by
  unfold run_cron_job
  rw [hj]
  simp only [hact, Bool.not_true, Bool.false_eq_true, if_false]
  cases o <;> rfl

/-! ### The claims -/

/-- Claim C10: invoking the scheduled-path executor for a job name with no
JobDefinition row, or whose JobDefinition is inactive, returns without
creating any Run, without invoking the body, and without creating or
mutating any cancellation token: the whole state (tables, registry, next
run id) is returned unchanged. -/
theorem run_cron_job_inactive_noop (s : ExecState) (jn : String)
    (t0 t1 : Int) (o : JobOutcome) (pd : Option Details)
    (h : findJobByName s.db.jobs jn = none
         ∨ ∃ j, findJobByName s.db.jobs jn = some j ∧ j.is_active = false) :
    run_cron_job s jn t0 t1 o pd = s := by
  unfold run_cron_job
  rcases h with h | ⟨j, hj, hact⟩
  · rw [h]
  · rw [hj]
    simp [hact]

/-- A JobDefinition row used by concrete instantiations. -/
def jobInactive : CronJob :=
  { id := 3, name := "update_schedules", is_active := false, last_run := none,
    total_runs := 4, successful_runs := 2, failed_runs := 2, updated_at := 0 }

/-- A state whose only job row is inactive. -/
def stateInactive : ExecState :=
  { db := { runs := [], jobs := [jobInactive] }, reg := [], nextRunId := 5 }

theorem run_cron_job_inactive_noop_witness :
    run_cron_job stateInactive "update_schedules" 0 10 JobOutcome.timeout none
      = stateInactive :=
  run_cron_job_inactive_noop stateInactive "update_schedules" 0 10
    JobOutcome.timeout none (Or.inr ⟨jobInactive, by decide, by decide⟩)

/-- Claim C7: stopping a Run that is already in a terminal state (success
or failed) is idempotent: the endpoint returns the existing status and
performs no writes at all; the run table and the token registry are
returned exactly as given, so status, completed_at, duration_seconds and
error_message are unchanged and no token is created or cancelled. -/
theorem stop_cron_run_terminal_noop (db : DBState) (reg : Registry)
    (run_id : Nat) (now : Int) (run : CronRun)
    (hfind : findRun db.runs run_id = some run)
    (hterm : run.status = "success" ∨ run.status = "failed") :
    stop_cron_run db reg run_id now
      = (StopResponse.alreadyDone run.status, db, reg) := by
  unfold stop_cron_run
  rw [hfind]
  have hprop : ¬ run.status = "running" := by
    rcases hterm with h | h <;> rw [h] <;> decide
  simp [hprop]

/-- A finished run used by concrete instantiations. -/
def runDone : CronRun :=
  { id := 9, job_id := 1, job_name := "update_finished_games",
    triggered_by := "manual", started_at := 100, completed_at := some 200,
    status := "success", duration_seconds := some 100, items_updated := 3,
    error_message := none, details := none }

theorem stop_cron_run_terminal_noop_witness :
    stop_cron_run { runs := [runDone], jobs := [] } [] 9 5000
      = (StopResponse.alreadyDone "success", { runs := [runDone], jobs := [] }, []) :=
  stop_cron_run_terminal_noop { runs := [runDone], jobs := [] } [] 9 5000
    runDone (by decide) (Or.inl rfl)

/-- Claim C5: in both executors, a body that exceeds the wall-clock
timeout leaves the Run finalized with status failed, a non-null
completed_at, the message naming the configured 1800-second limit, and
duration_seconds equal to the configured timeout value. -/
theorem run_timeout_marks_failed (s : ExecState) (jn : String) (t0 t1 : Int)
    (pd : Option Details) (j : CronJob)
    (hfresh : ∀ r ∈ s.db.runs, r.id ≠ s.nextRunId)
    (hj : findJobByName s.db.jobs jn = some j)
    (hact : j.is_active = true) :
    (∃ r, findRun (run_job_now s jn t0 t1 JobOutcome.timeout pd).db.runs
            s.nextRunId = some r
       ∧ r.status = "failed" ∧ r.completed_at = some t1
       ∧ r.error_message = some "Job timed out after 1800 seconds"
       ∧ r.duration_seconds = some 1800)
    ∧ (∃ r, findRun (run_cron_job s jn t0 t1 JobOutcome.timeout pd).db.runs
            s.nextRunId = some r
       ∧ r.status = "failed" ∧ r.completed_at = some t1
       ∧ r.error_message = some "Job timed out after 1800 seconds"
       ∧ r.duration_seconds = some 1800) := by
  constructor
  · rw [run_job_now_runs]
    exact ⟨_, findRun_two_updates s.db.runs _ s.nextRunId _ _ hfresh rfl
      (fun r => rfl) (fun r => rfl), rfl, rfl, rfl, rfl⟩
  · rw [run_cron_job_runs s jn t0 t1 JobOutcome.timeout pd j hj hact]
    exact ⟨_, findRun_two_updates s.db.runs _ s.nextRunId _ _ hfresh rfl
      (fun r => rfl) (fun r => rfl), rfl, rfl, rfl, rfl⟩

/-- An active JobDefinition row used by concrete instantiations. -/
def jobActive : CronJob :=
  { id := 1, name := "update_finished_games", is_active := true,
    last_run := none, total_runs := 0, successful_runs := 0,
    failed_runs := 0, updated_at := 0 }

/-- A clean state with one active job. -/
def stateActive : ExecState :=
  { db := { runs := [], jobs := [jobActive] }, reg := [], nextRunId := 1 }

theorem run_timeout_marks_failed_witness :
    ∃ r, findRun (run_job_now stateActive "update_finished_games" 0 1800
            JobOutcome.timeout none).db.runs 1 = some r
       ∧ r.status = "failed" ∧ r.completed_at = some 1800
       ∧ r.error_message = some "Job timed out after 1800 seconds"
       ∧ r.duration_seconds = some 1800 :=
  (run_timeout_marks_failed stateActive "update_finished_games" 0 1800 none
    jobActive (by simp [stateActive]) (by decide) rfl).1

/-- Claim C9: when the body raises an exception other than the
cancellation and timeout signals, both executors catch it at their
boundary, mark the Run failed with error_message equal to the exception
text, and return normally (the embedded executors are total functions of
the outcome, mirroring that no exception propagates to the scheduler
loop). -/
theorem run_exception_marks_failed (s : ExecState) (jn : String)
    (t0 t1 : Int) (pd : Option Details) (msg : String) (j : CronJob)
    (hfresh : ∀ r ∈ s.db.runs, r.id ≠ s.nextRunId)
    (hj : findJobByName s.db.jobs jn = some j)
    (hact : j.is_active = true) :
    (∃ r, findRun (run_job_now s jn t0 t1 (JobOutcome.exc msg) pd).db.runs
            s.nextRunId = some r
       ∧ r.status = "failed" ∧ r.error_message = some msg
       ∧ r.completed_at = some t1)
    ∧ (∃ r, findRun (run_cron_job s jn t0 t1 (JobOutcome.exc msg) pd).db.runs
            s.nextRunId = some r
       ∧ r.status = "failed" ∧ r.error_message = some msg
       ∧ r.completed_at = some t1) := by
  constructor
  · rw [run_job_now_runs]
    exact ⟨_, findRun_two_updates s.db.runs _ s.nextRunId _ _ hfresh rfl
      (fun r => rfl) (fun r => rfl), rfl, rfl, rfl⟩
  · rw [run_cron_job_runs s jn t0 t1 (JobOutcome.exc msg) pd j hj hact]
    exact ⟨_, findRun_two_updates s.db.runs _ s.nextRunId _ _ hfresh rfl
      (fun r => rfl) (fun r => rfl), rfl, rfl, rfl⟩

theorem run_exception_marks_failed_witness :
    ∃ r, findRun (run_cron_job stateActive "update_finished_games" 0 60
            (JobOutcome.exc "division by zero") none).db.runs 1 = some r
       ∧ r.status = "failed" ∧ r.error_message = some "division by zero"
       ∧ r.completed_at = some 60 :=
  (run_exception_marks_failed stateActive "update_finished_games" 0 60 none
    "division by zero" jobActive (by simp [stateActive]) (by decide) rfl).2

/-- Claim C8: at finalization, when both the already-persisted payload and
the payload returned by the body contain a log list, the merged details
keep the persisted log; when only one side has a log list, that one is
kept; every other key of the body payload overwrites a same-named
persisted key; and the finalized Run stores exactly this merge of the two
payloads. -/
theorem detail_merge_incremental_log_wins (e n : Details) (k : String)
    (hn : (n.map Prod.fst).Nodup) (hk : k ≠ "logs")
    (s : ExecState) (jn : String) (t0 t1 : Int) (rd : ResultData)
    (pd : Details)
    (hfresh : ∀ r ∈ s.db.runs, r.id ≠ s.nextRunId) :
    (∀ le ln, dictGet e "logs" = some le → dictGet n "logs" = some ln →
       dictGet (mergeRunDetails e n) "logs" = some le)
    ∧ (dictGet e "logs" = none →
       dictGet (mergeRunDetails e n) "logs" = dictGet n "logs")
    ∧ (dictGet n "logs" = none →
       dictGet (mergeRunDetails e n) "logs" = dictGet e "logs")
    ∧ (∀ v, dictGet n k = some v → dictGet (mergeRunDetails e n) k = some v)
    ∧ (∃ r, findRun (run_job_now s jn t0 t1 (JobOutcome.normal rd)
            (some pd)).db.runs s.nextRunId = some r
        ∧ r.details = some (mergeRunDetails pd (rd.detailsKey.getD []))) := by
  refine ⟨?_, ?_, ?_, ?_, ?_⟩
  · intro le ln he hnl
    rw [mergeRunDetails_logs e n hn, he]
    simp [optOr]
  · intro he
    rw [mergeRunDetails_logs e n hn, he]
    simp [optOr]
  · intro hnl
    rw [mergeRunDetails_logs e n hn, hnl]
    cases dictGet e "logs" <;> simp [optOr]
  · intro v hv
    rw [mergeRunDetails_other e n k hn hk, hv]
    simp [optOr]
  · rw [run_job_now_runs]
    exact ⟨_, findRun_two_updates s.db.runs _ s.nextRunId _ _ hfresh rfl
      (fun r => rfl) (fun r => rfl), rfl⟩

theorem detail_merge_incremental_log_wins_witness :
    dictGet (mergeRunDetails
        [("logs", Val.vLogs ["step 1"]), ("count", Val.vInt 1)]
        [("logs", Val.vLogs ["done"]), ("count", Val.vInt 7)]) "logs"
      = some (Val.vLogs ["step 1"])
    ∧ dictGet (mergeRunDetails
        [("logs", Val.vLogs ["step 1"]), ("count", Val.vInt 1)]
        [("logs", Val.vLogs ["done"]), ("count", Val.vInt 7)]) "count"
      = some (Val.vInt 7) := by
  have h := detail_merge_incremental_log_wins
    [("logs", Val.vLogs ["step 1"]), ("count", Val.vInt 1)]
    [("logs", Val.vLogs ["done"]), ("count", Val.vInt 7)] "count"
    (by decide) (by decide) stateActive "update_finished_games" 0 1
    { statusKey := none, itemsUpdatedKey := none, detailsKey := none,
      errorKey := none } [] (by simp [stateActive])
  exact ⟨h.1 (Val.vLogs ["step 1"]) (Val.vLogs ["done"]) (by decide) (by decide),
    h.2.2.2.1 (Val.vInt 7) (by decide)⟩

/-- Claim C6: the stuck-run sweep turns every Run that is `running` and
started more than one hour before the sweep time into a failed Run whose
completion time is the sweep time, with the reclamation message and a
non-negative duration from start to completion; it removes the matching
cancellation token from the registry (after cancelling it); when a
JobDefinition backs the Run, its failed_runs and total_runs each grow by
exactly the number of reclaimed Runs it backs — the given Run contributes
exactly one (it is among the reclaimed Runs counted), and when it is the
only reclaimed Run of that job, the counters each grow by exactly one —
while the success counter never moves; and every younger or
already-terminal Run is left untouched. -/
theorem cleanup_stuck_spec (db : DBState) (reg : Registry) (now : Int)
    (r : CronRun) (hr : r ∈ db.runs)
    (hrun : r.status = "running") (hold : r.started_at < now - 3600) :
    (reclaimRun now r ∈ (cleanup_stuck_jobs db reg now).1.runs
     ∧ (reclaimRun now r).status = "failed"
     ∧ (reclaimRun now r).completed_at = some now
     ∧ (reclaimRun now r).error_message = some stuckMessage
     ∧ (reclaimRun now r).duration_seconds = some (now - r.started_at)
     ∧ 0 ≤ now - r.started_at
     ∧ regContains (cleanup_stuck_jobs db reg now).2 r.id = false
     ∧ (∀ j ∈ db.jobs, j.id = r.job_id →
         r ∈ (db.runs.filter (isStuck now)).filter
               (fun x => x.job_id == j.id)
         ∧ ∃ j2 ∈ (cleanup_stuck_jobs db reg now).1.jobs,
             j2.id = j.id ∧ j2.successful_runs = j.successful_runs ∧
             j2.failed_runs = j.failed_runs
               + (((db.runs.filter (isStuck now)).filter
                    (fun x => x.job_id == j.id)).length : Int) ∧
             j2.total_runs = j.total_runs
               + (((db.runs.filter (isStuck now)).filter
                    (fun x => x.job_id == j.id)).length : Int))
     ∧ (∀ j ∈ db.jobs, j.id = r.job_id →
         (db.runs.filter (isStuck now)).filter (fun x => x.job_id == j.id)
           = [r] →
         ∃ j2 ∈ (cleanup_stuck_jobs db reg now).1.jobs,
           j2.id = j.id ∧ j2.successful_runs = j.successful_runs ∧
           j2.failed_runs = j.failed_runs + 1 ∧
           j2.total_runs = j.total_runs + 1))
    ∧ (∀ r2 ∈ db.runs, isStuck now r2 = false →
        r2 ∈ (cleanup_stuck_jobs db reg now).1.runs) := by
  have hstuck : isStuck now r = true := by
    simp [isStuck, hrun, hold]
  constructor
  · refine ⟨?_, rfl, rfl, rfl, rfl, by omega, ?_, ?_, ?_⟩
    · have hm := List.mem_map_of_mem
        (fun x => if isStuck now x then reclaimRun now x else x) hr
      simpa [cleanup_stuck_jobs, hstuck] using hm
    · unfold cleanup_stuck_jobs
      apply foldl_sweepToken_absent
      exact ⟨r, List.mem_filter.mpr ⟨hr, hstuck⟩, rfl⟩
    · intro j hj hid
      have hsw := foldl_sweepJobCounters (db.runs.filter (isStuck now))
        db.jobs j hj
      obtain ⟨j2, hj2, hid2, _, _, hsucc, hfail, htot⟩ := hsw
      refine ⟨?_, j2, ?_, hid2, hsucc, hfail, htot⟩
      · refine List.mem_filter.mpr ⟨List.mem_filter.mpr ⟨hr, hstuck⟩, ?_⟩
        simp [hid]
      · simpa [cleanup_stuck_jobs] using hj2
    · intro j hj hid hsingle
      have hsw := foldl_sweepJobCounters (db.runs.filter (isStuck now))
        db.jobs j hj
      obtain ⟨j2, hj2, hid2, _, _, hsucc, hfail, htot⟩ := hsw
      rw [hsingle] at hfail htot
      refine ⟨j2, by simpa [cleanup_stuck_jobs] using hj2, hid2, hsucc, ?_, ?_⟩
      · rw [hfail]
        simp
      · rw [htot]
        simp
  · intro r2 hr2 hns
    have hm := List.mem_map_of_mem
      (fun x => if isStuck now x then reclaimRun now x else x) hr2
    simpa [cleanup_stuck_jobs, hns] using hm

/-- A stuck run used by concrete instantiations. -/
def stuckRun : CronRun :=
  { id := 4, job_id := 2, job_name := "update_team_results",
    triggered_by := "cron", started_at := 0, completed_at := none,
    status := "running", duration_seconds := none, items_updated := 0,
    error_message := none, details := none }

/-- The job backing the stuck run. -/
def jobOfStuck : CronJob :=
  { id := 2, name := "update_team_results", is_active := true,
    last_run := none, total_runs := 7, successful_runs := 5,
    failed_runs := 2, updated_at := 0 }

theorem cleanup_stuck_spec_witness :
    reclaimRun 10000 stuckRun
      ∈ (cleanup_stuck_jobs { runs := [stuckRun], jobs := [jobOfStuck] }
          [(4, CancellationToken.new 4)] 10000).1.runs
    ∧ regContains (cleanup_stuck_jobs { runs := [stuckRun], jobs := [jobOfStuck] }
          [(4, CancellationToken.new 4)] 10000).2 4 = false
    ∧ ∃ j2 ∈ (cleanup_stuck_jobs { runs := [stuckRun], jobs := [jobOfStuck] }
          [(4, CancellationToken.new 4)] 10000).1.jobs,
        j2.id = jobOfStuck.id
        ∧ j2.successful_runs = jobOfStuck.successful_runs
        ∧ j2.failed_runs = jobOfStuck.failed_runs + 1
        ∧ j2.total_runs = jobOfStuck.total_runs + 1 := by
  have h := cleanup_stuck_spec { runs := [stuckRun], jobs := [jobOfStuck] }
    [(4, CancellationToken.new 4)] 10000 stuckRun (by simp) rfl (by decide)
  exact ⟨h.1.1, h.1.2.2.2.2.2.2.1,
    h.1.2.2.2.2.2.2.2.2 jobOfStuck (by simp) rfl (by decide)⟩

/-- Claim C4: a fetch failure for one game is recorded against that game
in the errors of the run details, every other game of the batch is still
processed exactly as it would have been, and the job still returns
`status="success"` (entity-level errors never mark the whole Run
failed, in particular not unless every entity fails). -/
theorem entity_error_isolated (now : Int)
    (pre post : List (Game × FetchResult)) (g : Game) (m : String)
    (entries : List (Game × FetchResult))
    (he : entries = pre ++ (g, FetchResult.exc m) :: post) :
    ("Error fetching boxscore: " ++ m) ∈ (processBoxscores now entries).errors
    ∧ (processBoxscores now entries).games
        = entries.map (fun e => (processGameBoxscore now e.1 e.2).game)
    ∧ updateFinishedGamesStatus (processBoxscores now entries) = "success"
    ∧ updateFinishedGamesStatus (processBoxscores now entries) ≠ "failed" := by
  refine ⟨?_, processBoxscores_games now entries, rfl, by
    unfold updateFinishedGamesStatus
    decide⟩
  rw [processBoxscores_errors]
  apply List.mem_flatten.mpr
  refine ⟨["Error fetching boxscore: " ++ m], ?_, by simp⟩
  have hmem : (g, FetchResult.exc m) ∈ entries := by
    rw [he]
    exact List.mem_append_right _ (List.mem_cons_self _ _)
  have hmap := List.mem_map_of_mem
    (fun e : Game × FetchResult => (processGameBoxscore now e.1 e.2).errors) hmem
  simpa [processGameBoxscore] using hmap

/-- Games used by concrete instantiations of the batch loop. -/
def gameA : Game :=
  { id := 1, nba_game_id := "0022400100", home_team_id := 1, away_team_id := 2,
    start_time_utc := 0, status := "scheduled", home_score := none,
    away_score := none, source := "api", is_manual_override := false,
    override_reason := none, last_api_sync := none, last_manual_edit := none }

def gameB : Game :=
  { gameA with id := 2, nba_game_id := "0022400101", home_team_id := 3,
               away_team_id := 4 }

def gameC : Game :=
  { gameA with id := 3, nba_game_id := "0022400102", home_team_id := 5,
               away_team_id := 6 }

/-- A batch whose middle fetch raised. -/
def entriesWithError : List (Game × FetchResult) :=
  [(gameA, FetchResult.ok (some { game_status := "Final", home_score := some 100, away_score := some 90 })),
   (gameB, FetchResult.exc "timeout"),
   (gameC, FetchResult.ok (some { game_status := "Final", home_score := some 95, away_score := some 99 }))]

theorem entity_error_isolated_witness :
    "Error fetching boxscore: timeout"
        ∈ (processBoxscores 7 entriesWithError).errors
    ∧ updateFinishedGamesStatus (processBoxscores 7 entriesWithError)
        = "success" := by
  have h := entity_error_isolated 7
    [(gameA, FetchResult.ok (some { game_status := "Final", home_score := some 100, away_score := some 90 }))]
    [(gameC, FetchResult.ok (some { game_status := "Final", home_score := some 95, away_score := some 99 }))]
    gameB "timeout" entriesWithError rfl
  exact ⟨h.1, h.2.2.1⟩

/-- A game an operator has manually overridden, scheduled (with no stored
score) and started three hours before the sync runs, inside the job
look-back window. -/
def overriddenGame : Game :=
  { id := 21, nba_game_id := "0022400555", home_team_id := 10,
    away_team_id := 20, start_time_utc := 32400, status := "scheduled",
    home_score := none, away_score := none, source := "manual",
    is_manual_override := true,
    override_reason := some "operator corrected result",
    last_api_sync := none, last_manual_edit := some 1000 }

/-- The upstream boxscore reporting that game final. -/
def finalBoxscore : Boxscore :=
  { game_status := "Final", home_score := some 101, away_score := some 97 }

/-- A manually overridden game already stored as final 110-108. -/
def overriddenFinalGame : Game :=
  { overriddenGame with id := 22, nba_game_id := "0022400556",
                        status := "final", home_score := some 110,
                        away_score := some 108 }

/-- Claim C1: the claim fails on the code.  With the sweep time at 43200
(so the twelve-hour window is [0, 43200] and the two-hour cutoff 36000),
the overridden game passes every filter of update_finished_games, and the
per-game write then overwrites its status and both scores and counts it,
with no check of is_manual_override; likewise the existing-game branch of
update_schedules overwrites status, start time and scores of an overridden
final game.  The business fields of records with is_manual_override=true
are therefore not protected from these two jobs. -/
theorem override_overwritten_counterexample :
    overriddenGame.is_manual_override = true
    ∧ recentGamesFilter 43200 0 [overriddenGame] = [overriddenGame]
    ∧ gamesToCheckFilter false 36000 [overriddenGame] = [overriddenGame]
    ∧ gamesNeedingUpdateFilter false [overriddenGame] = [overriddenGame]
    ∧ (processGameBoxscore 43200 overriddenGame
        (FetchResult.ok (some finalBoxscore))).game.status = "final"
    ∧ (processGameBoxscore 43200 overriddenGame
        (FetchResult.ok (some finalBoxscore))).game.home_score = some 101
    ∧ (processGameBoxscore 43200 overriddenGame
        (FetchResult.ok (some finalBoxscore))).game.away_score = some 97
    ∧ (processGameBoxscore 43200 overriddenGame
        (FetchResult.ok (some finalBoxscore))).games_updated = 1
    ∧ overriddenFinalGame.is_manual_override = true
    ∧ (updateSchedulesExistingStep 43200 overriddenFinalGame
        { status := some "scheduled", home_score := some 90,
          away_score := some 80 } 50000).1.home_score = some 90
    ∧ (updateSchedulesExistingStep 43200 overriddenFinalGame
        { status := some "scheduled", home_score := some 90,
          away_score := some 80 } 50000).1.status = "scheduled"
    ∧ (updateSchedulesExistingStep 43200 overriddenFinalGame
        { status := some "scheduled", home_score := some 90,
          away_score := some 80 } 50000).2 = 1 := by
  decide

/-- Claim C2: the claim fails on the code for the scheduled-path executor.
After run_cron_job finishes a body that timed out or was cancelled, the
token for the new run id 1 is still in the registry (cancel_run still
finds one), while the manual-path executor removes it on the same outcome
through its finally block, and run_cron_job itself removes it on the
normal and exception outcomes. -/
theorem token_leak_counterexample :
    regContains (run_cron_job stateActive "update_finished_games" 0 1800
        JobOutcome.timeout none).reg 1 = true
    ∧ (cancel_run (run_cron_job stateActive "update_finished_games" 0 1800
        JobOutcome.timeout none).reg 1 1900 "Stopped by user").1 = true
    ∧ regContains (run_cron_job stateActive "update_finished_games" 0 100
        (JobOutcome.cancelled "Job cancelled: Stopped by user") none).reg 1
        = true
    ∧ regContains (run_job_now stateActive "update_finished_games" 0 1800
        JobOutcome.timeout none).reg 1 = false
    ∧ regContains (run_cron_job stateActive "update_finished_games" 0 100
        (JobOutcome.normal { statusKey := none, itemsUpdatedKey := none,
                             detailsKey := none, errorKey := none }) none).reg 1
        = false
    ∧ regContains (run_cron_job stateActive "update_finished_games" 0 100
        (JobOutcome.exc "boom") none).reg 1 = false := by
  decide

/-- A stored season-stats row. -/
def seasonStatsSame : PlayerSeasonStats :=
  { id := 11, player_id := 30, season := "2024-25", pts := 25, reb := 8,
    ast := 7, stl := 1, blk := 1, games_played := 50, minutes := 34,
    fg_pct := some 47, fg3_pct := some 38, ft_pct := none,
    is_manual_override := false, last_api_sync := none }

/-- An upstream season entry identical to the stored row. -/
def seasonDataSame : SeasonData :=
  { pts := 25, reb := 8, ast := 7, stl := 1, blk := 1, games_played := 50,
    minutes := 34, fg_pct := some 47, fg3_pct := some 38, ft_pct := none }

/-- Claim C3: the claim fails on the code.  In
update_player_season_averages_batch, a player whose upstream season entry
equals the stored row in every business field is still counted in
players_updated (which feeds the items-updated counter), while the log
marks no change; the only business write is none at all (the row keeps
every business value, only last_api_sync moves). -/
theorem identical_write_counted_counterexample :
    (updatePlayerSeasonStep 5000 seasonStatsSame (some seasonDataSame)).players_updated = 1
    ∧ (updatePlayerSeasonStep 5000 seasonStatsSame (some seasonDataSame)).logged_change = false
    ∧ (updatePlayerSeasonStep 5000 seasonStatsSame (some seasonDataSame)).stats
        = { seasonStatsSame with last_api_sync := some 5000 } := by
  decide

/-- Claim C3 amended: in update_team_results a game is counted only when a
business field (a score or the status) actually changes, and an uncounted
game is left entirely unchanged; in update_player_season_averages_batch
the log line marks a change exactly when one of the six compared fields
differs, but the players_updated counter increments for every player with
upstream season data, identical values included; in update_finished_games
the games_updated counter increments exactly when the upstream status
contains "final", identical values included. -/
theorem items_counter_amended (now : Int) (game : Game) (ctid : Nat)
    (pts : Option Int) (wl : Option String)
    (stats : PlayerSeasonStats) (sd : SeasonData)
    (g2 : Game) (b : Boxscore) :
    ((updateTeamResultsGameStep now game ctid pts wl).2 = false →
       (updateTeamResultsGameStep now game ctid pts wl).1 = game)
    ∧ ((updateTeamResultsGameStep now game ctid pts wl).2 = true →
       ((updateTeamResultsGameStep now game ctid pts wl).1.home_score ≠ game.home_score
        ∨ (updateTeamResultsGameStep now game ctid pts wl).1.away_score ≠ game.away_score
        ∨ (updateTeamResultsGameStep now game ctid pts wl).1.status ≠ game.status))
    ∧ ((updatePlayerSeasonStep now stats (some sd)).logged_change = true ↔
        (stats.pts ≠ sd.pts ∨ stats.reb ≠ sd.reb ∨ stats.ast ≠ sd.ast
         ∨ stats.stl ≠ sd.stl ∨ stats.blk ≠ sd.blk
         ∨ stats.games_played ≠ sd.games_played))
    ∧ (updatePlayerSeasonStep now stats (some sd)).players_updated = 1
    ∧ (processGameBoxscore now g2 (FetchResult.ok (some b))).games_updated
        = (if statusHasFinal (pyLower b.game_status) then 1 else 0) := by
  refine ⟨?_, ?_, ?_, rfl, ?_⟩
  · intro h
    unfold updateTeamResultsGameStep updateTeamResultsFinish
      updateTeamResultsWL updateTeamResultsScore at h ⊢
    split_ifs at h ⊢ <;> simp_all
  · intro h
    unfold updateTeamResultsGameStep updateTeamResultsFinish
      updateTeamResultsWL updateTeamResultsScore at h ⊢
    split_ifs at h ⊢ <;> simp_all [bne_iff_ne] <;> tauto
  · unfold updatePlayerSeasonStep
    simp [bne_iff_ne, or_assoc]
  · cases hf : statusHasFinal (pyLower b.game_status) <;>
      simp [processGameBoxscore, hf]

/-- A game whose stored away score differs from the upstream row. -/
def staleAwayGame : Game :=
  { gameA with id := 41, nba_game_id := "0022400700", home_team_id := 7,
               away_team_id := 8, status := "final", home_score := some 120,
               away_score := some 100 }

theorem items_counter_amended_witness :
    ((updateTeamResultsGameStep 9000 staleAwayGame 9 (some 120) (some "W")).2 = false →
       (updateTeamResultsGameStep 9000 staleAwayGame 9 (some 120) (some "W")).1 = staleAwayGame)
    ∧ (updatePlayerSeasonStep 9000 seasonStatsSame (some seasonDataSame)).players_updated = 1 := by
  have h := items_counter_amended 9000 staleAwayGame 9 (some 120) (some "W")
    seasonStatsSame seasonDataSame gameA
    { game_status := "Final", home_score := some 1, away_score := some 2 }
  exact ⟨h.1, h.2.2.2.1⟩

end App
